import Mathlib

/-
Verification of the platform shim src/libobs/util/platform-nix.c against its
natural-language specification.

The development embeds the C functions the claims mention as executable Lean
definitions.  OS facilities (dlopen, fopen/fread/fwrite, pthread_create,
os_event wait results, posix_spawnp) are parameters of the embedded
functions: each call site receives the value the OS would return, so the
theorems quantify over every environment behaviour.  Strings are lists of
characters; the C int results stay Int.
-/

/- ------------------------------------------------------------------
   Section 1: os_dlopen (platform-nix.c lines 42-60)

   void *os_dlopen(const char *path) {
     if (!path) return NULL;
     dstr_init_copy(&dylib_name, path);
     if (!dstr_find(&dylib_name, ".so")) dstr_cat(&dylib_name, ".so");
     void *res = dlopen(dylib_name.array, RTLD_LAZY);
     ...
     return res;
   }

   dstr_find is strstr: the index of the first occurrence of the needle.
   The model returns the name handed to dlopen; none means dlopen was
   never called (the NULL-path early return).
   ------------------------------------------------------------------ -/

/-- strstr-style search: index of the first position of `sub` inside the
haystack, none when `sub` occurs nowhere.  Embeds dstr_find from dstr.h. -/
def strstr (sub : List Char) : List Char → Option Nat
  | [] => if sub <+: ([] : List Char) then some 0 else none
  | c :: t => if sub <+: (c :: t) then some 0 else (strstr sub t).map (fun n => n + 1)

/-- The three characters of the literal ".so". -/
def soSuffix : List Char := ['.', 's', 'o']

/-- Embedding of os_dlopen, reporting the library name passed to dlopen;
`none` means the call returned NULL immediately and dlopen never ran. -/
def os_dlopen (path : Option (List Char)) : Option (List Char) :=
  match path with
  | none => none
  | some p =>
    match strstr soSuffix p with
    | none => some (p ++ soSuffix)
    | some _ => some p

/-- The search succeeds exactly on haystacks that contain the needle. -/
theorem strstr_isSome_iff (sub : List Char) :
    ∀ s : List Char, (strstr sub s).isSome = true ↔ sub <:+: s := by
  intro s
  induction s with
  | nil =>
    by_cases h : sub <+: ([] : List Char)
    · simp [strstr, h, List.infix_nil, List.prefix_nil.mp h]
    · simp [strstr, h, List.infix_nil]
      exact fun he => h (List.prefix_nil.mpr he)
  | cons c t ih =>
    by_cases h : sub <+: (c :: t)
    · simp [strstr, h, List.IsPrefix.isInfix h]
    · simp only [strstr, if_neg h, Option.isSome_map']
      rw [ih, List.infix_cons_iff]
      constructor
      · exact Or.inr
      · rintro (hp | hi)
        · exact absurd hp h
        · exact hi

/-- The search fails exactly on haystacks without the needle. -/
theorem strstr_eq_none_iff (sub s : List Char) :
    strstr sub s = none ↔ ¬ sub <:+: s := by
  rw [← strstr_isSome_iff sub s]
  cases hs : strstr sub s <;> simp [hs]

/-- C10: os_dlopen(NULL) returns NULL without attempting a load; a non-null
path without the substring ".so" gets ".so" appended before the load; a path
containing ".so" anywhere is loaded unmodified. -/
theorem C10_dlopen_so_suffix :
    os_dlopen none = none ∧
    (∀ p : List Char, ¬ soSuffix <:+: p → os_dlopen (some p) = some (p ++ soSuffix)) ∧
    (∀ p : List Char, soSuffix <:+: p → os_dlopen (some p) = some p) := by
  refine ⟨rfl, ?_, ?_⟩
  · intro p hp
    have h := (strstr_eq_none_iff soSuffix p).mpr hp
    simp [os_dlopen, h]
  · intro p hp
    have h : (strstr soSuffix p).isSome = true := (strstr_isSome_iff soSuffix p).mpr hp
    rcases ho : strstr soSuffix p with _ | i
    · rw [ho] at h; simp at h
    · simp [os_dlopen, ho]

/-- C10 witness: concrete evaluations discharging both hypotheses. -/
theorem C10_dlopen_so_suffix_witness :
    os_dlopen (some ['l', 'i', 'b', 'f']) = some (['l', 'i', 'b', 'f'] ++ soSuffix) ∧
    os_dlopen (some ['a', '.', 's', 'o', '.', '2']) = some ['a', '.', 's', 'o', '.', '2'] :=
  ⟨C10_dlopen_so_suffix.2.1 ['l', 'i', 'b', 'f'] (by decide),
   C10_dlopen_so_suffix.2.2 ['a', '.', 's', 'o', '.', '2'] (by decide)⟩

/- ------------------------------------------------------------------
   Section 2: os_copyfile (platform-nix.c lines 388-420)

   int os_copyfile(const char *file_path_in, const char *file_path_out) {
     ...
     if (os_file_exists(file_path_out)) return -1;
     file_in = fopen(file_path_in, "rb");
     if (!file_in) return -1;
     file_out = fopen(file_path_out, "ab+");
     if (!file_out) goto error;
     do {
       size = fread(data, 1, sizeof(data), file_in);
       if (size) size = fwrite(data, 1, size, file_out);
     } while (size == sizeof(data));
     ret = feof(file_in) ? 0 : -1;
   error: ...
     return ret;
   }

   The OS responses are parameters: outExists is the os_file_exists probe
   of the destination, inFile the content fopen(file_path_in) yields (none
   when that fopen fails), outOpenOk whether fopen(file_path_out) works,
   and wcap i how many bytes the i-th fwrite accepts (short writes).
   fread on a stream with n bytes left yields min 4096 n bytes and raises
   the EOF flag exactly when it returns fewer bytes than asked.
   ------------------------------------------------------------------ -/

/-- Observable file events of os_copyfile: openIn / openOut record that the
corresponding fopen was attempted, read n an fread returning n bytes,
write n an fwrite accepting n bytes. -/
inductive FEv
  | openIn
  | openOut
  | read (n : Nat)
  | write (n : Nat)
deriving DecidableEq, Repr

/-- The do/while copy loop.  fuel bounds the recursion (any fuel beyond the
input length is enough); the first component is the EOF flag of the input
stream when the loop exits, the second the event list of the loop. -/
def copyLoopF : Nat → (Nat → Nat) → Nat → List Nat → Bool × List FEv
  | 0, _, _, _ => (true, [])
  | fuel + 1, wcap, i, input =>
    let rs := (input.take 4096).length
    if rs = 0 then
      (true, [FEv.read 0])
    else
      let ws := min rs (wcap i)
      if ws = 4096 then
        let rest := copyLoopF fuel wcap (i + 1) (input.drop 4096)
        (rest.1, FEv.read rs :: FEv.write ws :: rest.2)
      else
        (decide (rs < 4096), [FEv.read rs, FEv.write ws])

/-- Embedding of os_copyfile: the returned int and the event list. -/
def os_copyfile (outExists : Bool) (inFile : Option (List Nat)) (outOpenOk : Bool)
    (wcap : Nat → Nat) : Int × List FEv :=
  if outExists then (-1, [])
  else
    match inFile with
    | none => (-1, [FEv.openIn])
    | some content =>
      if outOpenOk = false then (-1, [FEv.openIn, FEv.openOut])
      else
        let r := copyLoopF (content.length + 1) wcap 0 content
        ((if r.1 then 0 else -1), FEv.openIn :: FEv.openOut :: r.2)

/-- Total number of bytes the read events of an event list report. -/
def sumReads : List FEv → Nat
  | [] => 0
  | FEv.read n :: rest => n + sumReads rest
  | _ :: rest => sumReads rest

theorem sumReads_cons_read (n : Nat) (l : List FEv) :
    sumReads (FEv.read n :: l) = n + sumReads l := rfl

theorem sumReads_cons_write (n : Nat) (l : List FEv) :
    sumReads (FEv.write n :: l) = sumReads l := rfl

/-- When the copy loop exits with the EOF flag raised, its reads have
consumed the whole input stream. -/
theorem copyLoopF_eof_reads_all (fuel : Nat) :
    ∀ (wcap : Nat → Nat) (i : Nat) (input : List Nat),
      input.length < fuel →
      (copyLoopF fuel wcap i input).1 = true →
      sumReads (copyLoopF fuel wcap i input).2 = input.length := by
  induction fuel with
  | zero => intro wcap i input h; omega
  | succ fuel ih =>
    intro wcap i input hlen heof
    have hrs : (input.take 4096).length = min 4096 input.length := by
      simp [List.length_take]
    by_cases h0 : (input.take 4096).length = 0
    · have hz : input.length = 0 := by omega
      simp only [copyLoopF, if_pos h0]
      simp [sumReads, hz]
    · simp only [copyLoopF, if_neg h0] at heof ⊢
      by_cases hw : min (input.take 4096).length (wcap i) = 4096
      · have hrs4 : (input.take 4096).length = 4096 := by omega
        have hlen4 : 4096 ≤ input.length := by omega
        simp only [if_pos hw] at heof ⊢
        have hdrop : (input.drop 4096).length = input.length - 4096 := by
          simp [List.length_drop]
        have hlt : (input.drop 4096).length < fuel := by omega
        have := ih wcap (i + 1) (input.drop 4096) hlt heof
        rw [sumReads_cons_read, sumReads_cons_write, this, hrs4, hdrop]
        omega
      · simp only [if_neg hw] at heof ⊢
        have hsmall : (input.take 4096).length < 4096 := by
          simp only [decide_eq_true_eq] at heof; exact heof
        have : (input.take 4096).length = input.length := by omega
        rw [sumReads_cons_read, sumReads_cons_write]
        simp [sumReads, this]

/-- C9: os_copyfile never touches an existing destination -- it returns -1
with no file opened and nothing written -- and it returns 0 only when the
whole input stream was read through to end of file. -/
theorem C9_copyfile_no_overwrite_and_eof :
    (∀ (inFile : Option (List Nat)) (outOpenOk : Bool) (wcap : Nat → Nat),
      os_copyfile true inFile outOpenOk wcap = (-1, [])) ∧
    (∀ (content : List Nat) (outOpenOk : Bool) (wcap : Nat → Nat),
      (os_copyfile false (some content) outOpenOk wcap).1 = 0 →
      sumReads (os_copyfile false (some content) outOpenOk wcap).2 = content.length) := by
  constructor
  · intro inFile outOpenOk wcap
    simp [os_copyfile]
  · intro content outOpenOk wcap hret
    match outOpenOk with
    | false => simp [os_copyfile] at hret
    | true =>
      have h1 : os_copyfile false (some content) true wcap
          = ((if (copyLoopF (content.length + 1) wcap 0 content).1 then 0 else -1),
             FEv.openIn :: FEv.openOut :: (copyLoopF (content.length + 1) wcap 0 content).2) := by
        simp [os_copyfile]
      rw [h1] at hret ⊢
      by_cases he : (copyLoopF (content.length + 1) wcap 0 content).1 = true
      · have hall := copyLoopF_eof_reads_all (content.length + 1) wcap 0 content
          (by omega) he
        show sumReads (copyLoopF (content.length + 1) wcap 0 content).2 = content.length
        exact hall
      · simp [he] at hret


/-- C9 witness: a 3-byte source with an ample write capacity; the first
conjunct instantiates the existing-destination clause, the second the
return-0 clause with its hypothesis computed. -/
theorem C9_copyfile_witness :
    os_copyfile true (some [1, 2, 3]) true (fun _ => 5000) = (-1, []) ∧
    sumReads (os_copyfile false (some [1, 2, 3]) true (fun _ => 5000)).2 = 3 :=
  ⟨C9_copyfile_no_overwrite_and_eof.1 (some [1, 2, 3]) true (fun _ => 5000),
   C9_copyfile_no_overwrite_and_eof.2 [1, 2, 3] true (fun _ => 5000) (by decide)⟩

/- ------------------------------------------------------------------
   Section 3: the sleep inhibitor (platform-nix.c lines 443-550)

   struct os_inhibit_info {
     struct dbus_sleep_info *dbus;   (when HAVE_DBUS)
     pthread_t screensaver_thread;
     os_event_t *stop_event;
     char *reason;
     posix_spawnattr_t attr;
     bool active;
   };

   The embedding keeps the fields the claims observe.  dbus is true when
   dbus_sleep_info_create returned a session, stop_event is true when
   os_event_init produced the event (bzalloc leaves the field NULL when it
   does not).  threadRunning is the state of the OS: whether a watchdog
   thread is currently alive; pthread_create starts one exactly when it
   returns 0, pthread_join reaps it.  pthreadRet is the value the
   pthread_create call site receives (POSIX: 0 on success, a positive
   error number on failure).
   ------------------------------------------------------------------ -/

structure InhibitState where
  dbus : Bool
  stop_event : Bool
  reason : List Char
  active : Bool
  threadRunning : Bool
deriving DecidableEq, Repr

/-- Observable calls os_inhibit_sleep_set_active / _destroy make. -/
inductive Effect
  | dbusInhibit (active : Bool)
  | threadCreate (ret : Int)
  | eventSignal
  | threadJoin
  | dbusDestroy
  | eventDestroy
  | attrDestroy
  | freeReason
  | freeInfo
deriving DecidableEq, Repr

/-- Embedding of os_inhibit_sleep_create (lines 454-475): bzalloc zeroes the
struct, the dbus session and the stop event come from the environment, the
reason string is copied, active starts false, no thread is running. -/
def os_inhibit_sleep_create (reason : List Char) (dbusOk eventOk : Bool) : InhibitState :=
  { dbus := dbusOk
    stop_event := eventOk
    reason := reason
    active := false
    threadRunning := false }

/-- Embedding of os_inhibit_sleep_set_active (lines 504-536).  Returns the
bool result, the handle afterwards (none stays none for a NULL handle) and
the calls made.  pthreadRet is what pthread_create returns if it is called;
the code keeps its result in an int and takes the failure branch only when
that int is negative. -/
def os_inhibit_sleep_set_active (info : Option InhibitState) (active : Bool)
    (pthreadRet : Int) : Bool × Option InhibitState × List Effect :=
  match info with
  | none => (false, none, [])
  | some st =>
    if st.active = active then
      (false, some st, [])
    else
      let dbusEffs := if st.dbus then [Effect.dbusInhibit active] else []
      if st.stop_event = false then
        (true, some st, dbusEffs)
      else if active then
        if pthreadRet < 0 then
          (false, some st, dbusEffs ++ [Effect.threadCreate pthreadRet])
        else
          (true,
           some { st with active := active,
                          threadRunning := st.threadRunning || decide (pthreadRet = 0) },
           dbusEffs ++ [Effect.threadCreate pthreadRet])
      else
        (true,
         some { st with active := active, threadRunning := false },
         dbusEffs ++ [Effect.eventSignal, Effect.threadJoin])

/-- Embedding of os_inhibit_sleep_destroy (lines 538-550): NULL is a no-op;
otherwise set_active(info, false) runs first (its deactivate path calls no
pthread_create, so that oracle is irrelevant and instantiated with 0) and
then the resources are released in source order. -/
def os_inhibit_sleep_destroy (info : Option InhibitState) :
    Option InhibitState × List Effect :=
  match info with
  | none => (none, [])
  | some st =>
    let r := os_inhibit_sleep_set_active (some st) false 0
    (none,
     r.2.2 ++ [Effect.dbusDestroy, Effect.eventDestroy, Effect.attrDestroy,
               Effect.freeReason, Effect.freeInfo])

/-- The active flag a set_active result reports, none for a NULL handle. -/
def stateActive : Option InhibitState → Option Bool
  | none => none
  | some st => some st.active

/-- The watchdog-thread status a result reports, none for a NULL handle. -/
def stateThread : Option InhibitState → Option Bool
  | none => none
  | some st => some st.threadRunning

/-- C3: calling set_active with the value already stored returns false and
has no observable side effect: no bus call, no thread spawn or join, and
the handle is unchanged. -/
theorem C3_idempotence_guard (st : InhibitState) (v : Bool) (r : Int)
    (h : st.active = v) :
    os_inhibit_sleep_set_active (some st) v r = (false, some st, []) := by
  simp [os_inhibit_sleep_set_active, h]

/-- C3 witness: a freshly created handle is inactive, so set_active(false)
is the guarded no-op. -/
theorem C3_idempotence_guard_witness :
    os_inhibit_sleep_set_active
        (some (os_inhibit_sleep_create ['r'] true true)) false 0
      = (false, some (os_inhibit_sleep_create ['r'] true true), []) :=
  C3_idempotence_guard _ false 0 (by decide)

/-- A handle whose stop event could not be created at construction time. -/
def noStopHandle : InhibitState :=
  { dbus := false, stop_event := false, reason := [], active := false,
    threadRunning := false }

/-- C4 counterexample: on the path without a stop-signal object the call
returns true yet the active flag stays false, not the requested true. -/
theorem C4_counterexample_no_stop_event :
    (os_inhibit_sleep_set_active (some noStopHandle) true 0).1 = true ∧
    stateActive (os_inhibit_sleep_set_active (some noStopHandle) true 0).2.1
      = some false := by
  decide

/-- C4 amended: when the handle has a stop-signal object, a true result
means the active flag now equals the requested value; when it has none, the
call returns true without starting a thread but leaves the handle -- its
active flag included -- unchanged. -/
theorem C4_active_updated_amended :
    (∀ (st : InhibitState) (v : Bool) (r : Int), st.stop_event = true →
      (os_inhibit_sleep_set_active (some st) v r).1 = true →
      stateActive (os_inhibit_sleep_set_active (some st) v r).2.1 = some v) ∧
    (∀ (st : InhibitState) (v : Bool) (r : Int), st.stop_event = false →
      st.active ≠ v →
      (os_inhibit_sleep_set_active (some st) v r).1 = true ∧
      (os_inhibit_sleep_set_active (some st) v r).2.1 = some st) := by
  constructor
  · intro st v r hse hret
    by_cases hav : st.active = v
    · simp [os_inhibit_sleep_set_active, hav] at hret
    · by_cases hv : v = true
      · subst hv
        by_cases hr : r < 0
        · simp [os_inhibit_sleep_set_active, hav, hse, hr] at hret
        · simp [os_inhibit_sleep_set_active, hav, hse, hr, stateActive]
      · have hv' : v = false := by cases v <;> simp_all
        subst hv'
        simp [os_inhibit_sleep_set_active, hav, hse, stateActive]
  · intro st v r hse hne
    simp [os_inhibit_sleep_set_active, hne, hse]

/-- C4 witness: both amended clauses at concrete handles. -/
theorem C4_active_updated_amended_witness :
    stateActive (os_inhibit_sleep_set_active
        (some (os_inhibit_sleep_create [] true true)) true 0).2.1 = some true ∧
    ((os_inhibit_sleep_set_active (some noStopHandle) true 0).1 = true ∧
     (os_inhibit_sleep_set_active (some noStopHandle) true 0).2.1
       = some noStopHandle) :=
  ⟨C4_active_updated_amended.1 _ true 0 (by decide) (by decide),
   C4_active_updated_amended.2 noStopHandle true 0 (by decide) (by decide)⟩

/-- C7: with the bus session absent but the stop event present, activating
an inactive handle succeeds when the thread starts: the call returns true,
makes no bus call, creates the watchdog thread and records active = true. -/
theorem C7_no_dbus_still_starts_thread (st : InhibitState)
    (hd : st.dbus = false) (hse : st.stop_event = true) (ha : st.active = false) :
    os_inhibit_sleep_set_active (some st) true 0
      = (true, some { st with active := true, threadRunning := true },
         [Effect.threadCreate 0]) := by
  simp [os_inhibit_sleep_set_active, hd, hse, ha]

/-- C7 witness: a freshly created handle whose bus session failed. -/
theorem C7_no_dbus_still_starts_thread_witness :
    os_inhibit_sleep_set_active
        (some (os_inhibit_sleep_create ['x'] false true)) true 0
      = (true, some { os_inhibit_sleep_create ['x'] false true with
                      active := true, threadRunning := true },
         [Effect.threadCreate 0]) :=
  C7_no_dbus_still_starts_thread _ (by decide) (by decide) (by decide)

/-- C8: NULL-handle calls are benign no-ops: set_active(NULL, v) returns
false with no effect for every v and environment, and destroy(NULL) frees
and signals nothing. -/
theorem C8_null_handle_noop :
    (∀ (v : Bool) (r : Int),
      os_inhibit_sleep_set_active none v r = (false, none, [])) ∧
    os_inhibit_sleep_destroy none = (none, []) :=
  ⟨fun _ _ => rfl, rfl⟩

/-- C1: evaluation at the failing environment.  A fresh inactive handle,
pthread_create fails with EAGAIN (11) -- POSIX error numbers are positive,
so the ret < 0 test of the source never fires.  The call returns true and
flips active to true, where the spec requires false with active unchanged;
no thread is running. -/
theorem C1_pthread_failure_returns_true :
    (os_inhibit_sleep_set_active
        (some (os_inhibit_sleep_create [] false true)) true 11).1 = true ∧
    stateActive (os_inhibit_sleep_set_active
        (some (os_inhibit_sleep_create [] false true)) true 11).2.1 = some true ∧
    stateThread (os_inhibit_sleep_set_active
        (some (os_inhibit_sleep_create [] false true)) true 11).2.1 = some false := by
  decide

/-- C2: evaluation at the failing environment.  A fresh handle has
active = false and no thread; after set_active(true) under a failing
pthread_create (EAGAIN = 11) the flag is true while no watchdog thread
runs, breaking the runs-iff-active invariant. -/
theorem C2_invariant_breaks_on_thread_failure :
    (os_inhibit_sleep_create ['r'] true true).active = false ∧
    (os_inhibit_sleep_create ['r'] true true).threadRunning = false ∧
    stateActive (os_inhibit_sleep_set_active
        (some (os_inhibit_sleep_create ['r'] true true)) true 11).2.1 = some true ∧
    stateThread (os_inhibit_sleep_set_active
        (some (os_inhibit_sleep_create ['r'] true true)) true 11).2.1 = some false := by
  decide

/-- With the stop event present and pthread_create succeeding, one
set_active call preserves the thread-runs-iff-active invariant: the failing
environment of C2 is exactly what breaks it. -/
theorem set_active_ok_preserves_invariant (st : InhibitState) (v : Bool)
    (hse : st.stop_event = true) (hinv : st.threadRunning = st.active) :
    ∀ st', (os_inhibit_sleep_set_active (some st) v 0).2.1 = some st' →
      st'.threadRunning = st'.active := by
  intro st' hst
  by_cases hav : st.active = v
  · simp [os_inhibit_sleep_set_active, hav] at hst
    subst hst; exact hinv
  · by_cases hv : v = true
    · subst hv
      simp [os_inhibit_sleep_set_active, hav, hse] at hst
      subst hst; simp
    · have hv' : v = false := by cases v <;> simp_all
      subst hv'
      simp [os_inhibit_sleep_set_active, hav, hse] at hst
      subst hst; simp

/- ------------------------------------------------------------------
   Section 4: the watchdog loop (platform-nix.c lines 479-502)

   static void reset_screensaver(os_inhibit_t *info) {
     int err = posix_spawnp(&pid, "xdg-screensaver", NULL, &info->attr,
                            argv, environ);
     if (err == 0) { while (waitpid(pid, &status, 0) == -1); }
     else blog(LOG_WARNING, "Failed to create xdg-screensaver: %d", err);
   }

   static void *screensaver_thread(void *param) {
     while (os_event_timedwait(info->stop_event, 30000) == ETIMEDOUT)
       reset_screensaver(info);
     return NULL;
   }

   The environment supplies the outcome of every os_event_timedwait call
   and the posix_spawnp error of every timeout round.
   ------------------------------------------------------------------ -/

/-- One outcome of an os_event_timedwait call: the 30 s timeout fired (with
the posix_spawnp result of the round that follows) or the wait ended for
another reason, stop-signal delivery included. -/
inductive WaitRound
  | timedout (spawnErr : Nat)
  | signaled
deriving DecidableEq, Repr

/-- Observable events of the watchdog thread: a wait with its timeout in
milliseconds, a successful spawn of the reset subprocess, the blocking wait
for that child, the warning log of a failed spawn, and thread exit. -/
inductive TEv
  | waitCall (ms : Nat)
  | spawnReset
  | waitChild
  | logSpawnFail (err : Nat)
  | threadExit
deriving DecidableEq, Repr

/-- Embedding of reset_screensaver: spawn succeeds (err 0) and the child is
waited for, or the failure is logged and nothing else happens. -/
def reset_screensaver (spawnErr : Nat) : List TEv :=
  if spawnErr = 0 then [TEv.spawnReset, TEv.waitChild]
  else [TEv.logSpawnFail spawnErr]

/-- Embedding of screensaver_thread: wait 30000 ms on the stop event;
ETIMEDOUT runs reset_screensaver and loops, any other result exits.  An
exhausted outcome list leaves the thread blocked in its wait. -/
def screensaver_thread : List WaitRound → List TEv
  | [] => []
  | WaitRound.timedout e :: rest =>
    TEv.waitCall 30000 :: (reset_screensaver e ++ screensaver_thread rest)
  | WaitRound.signaled :: _ =>
    [TEv.waitCall 30000, TEv.threadExit]

/-- The watchdog trace for the given timeout rounds followed by stop
delivery and arbitrary later environment events. -/
def watchTrace (errs : List Nat) (junk : List WaitRound) : List TEv :=
  screensaver_thread (errs.map WaitRound.timedout ++ WaitRound.signaled :: junk)

theorem watchTrace_nil (junk : List WaitRound) :
    watchTrace [] junk = [TEv.waitCall 30000, TEv.threadExit] := rfl

theorem watchTrace_cons (e : Nat) (errs : List Nat) (junk : List WaitRound) :
    watchTrace (e :: errs) junk
      = TEv.waitCall 30000 :: (reset_screensaver e ++ watchTrace errs junk) := rfl

/-- A warning-log event of a failed spawn. -/
def isSpawnLog : TEv → Bool
  | TEv.logSpawnFail _ => true
  | _ => false

/-- Event counts of one reset round: no wait call, one invocation and one
child wait exactly when the spawn succeeded, one log exactly when not. -/
theorem reset_counts (e : Nat) :
    (reset_screensaver e).count (TEv.waitCall 30000) = 0 ∧
    (reset_screensaver e).count TEv.spawnReset = (if e = 0 then 1 else 0) ∧
    (reset_screensaver e).count TEv.waitChild = (if e = 0 then 1 else 0) ∧
    ((reset_screensaver e).filter isSpawnLog).length = (if e = 0 then 0 else 1) := by
  by_cases h : e = 0 <;>
    simp [reset_screensaver, h, isSpawnLog, List.count_cons, List.count_nil]

/-- C6: every wait of the watchdog loop uses the 30000 ms timeout; each
timeout round makes exactly one spawn attempt -- a successful spawn is one
subprocess invocation, waited for until it exits, and a failed spawn is
only logged -- after which the loop waits again; the delivered stop signal
ends the thread, and nothing the environment does afterwards adds any
event, so no invocation follows the exit. -/
theorem C6_watchdog_loop (errs : List Nat) (junk : List WaitRound) :
    (watchTrace errs junk).count (TEv.waitCall 30000) = errs.length + 1 ∧
    (watchTrace errs junk).count TEv.spawnReset
      = (errs.filter (fun e => e == 0)).length ∧
    (watchTrace errs junk).count TEv.waitChild
      = (watchTrace errs junk).count TEv.spawnReset ∧
    ((watchTrace errs junk).filter isSpawnLog).length
      = (errs.filter (fun e => !(e == 0))).length ∧
    (∃ pre, watchTrace errs junk = pre ++ [TEv.threadExit]) ∧
    watchTrace errs junk = watchTrace errs [] := by
  induction errs with
  | nil =>
    refine ⟨?_, ?_, ?_, ?_, ⟨[TEv.waitCall 30000], rfl⟩, rfl⟩ <;>
      simp [watchTrace_nil, List.count_cons, List.count_nil, isSpawnLog]
  | cons e rest ih =>
    obtain ⟨ih1, ih2, ih3, ih4, ⟨pre, hpre⟩, ih6⟩ := ih
    obtain ⟨hr1, hr2, hr3, hr4⟩ := reset_counts e
    refine ⟨?_, ?_, ?_, ?_, ?_, ?_⟩
    · simp only [watchTrace_cons, List.count_cons, List.count_append, hr1, ih1]
      simp [List.length_cons]
    · by_cases h : e = 0 <;>
        simp_all [watchTrace_cons, List.count_cons, List.count_append,
          List.filter_cons] <;> omega
    · by_cases h : e = 0 <;>
        simp_all [watchTrace_cons, List.count_cons, List.count_append] <;> omega
    · by_cases h : e = 0 <;>
        simp_all [watchTrace_cons, List.filter_append, List.filter_cons,
          isSpawnLog] <;> omega
    · refine ⟨TEv.waitCall 30000 :: (reset_screensaver e ++ pre), ?_⟩
      rw [watchTrace_cons, hpre]
      simp
    · rw [watchTrace_cons, watchTrace_cons, ih6]

/- ------------------------------------------------------------------
   Section 5: the deactivate path as an interleaved system (C5)

   On an active handle, set_active(info, false) runs (lines 529-532)
       os_event_signal(info->stop_event);
       pthread_join(info->screensaver_thread, NULL);
   while the watchdog thread loops in screensaver_thread.  The step
   relation interleaves the caller with that thread.  The auto-reset stop
   event is the boolean flag: os_event_signal sets it, a wait that sees it
   true consumes it and returns signaled, and a timeout decision is only
   possible while it is false.  The thread is blocked in its wait, mid
   reset_screensaver, or exited; pthread_join completes only once the
   thread has exited.  The trace records the ordered events the claim
   names plus the completed reset rounds.
   ------------------------------------------------------------------ -/

inductive CallerPC
  | atSignal
  | atJoin
  | retTrue
deriving DecidableEq, Repr

inductive ThSt
  | waiting
  | resetting
  | exited
deriving DecidableEq, Repr

inductive SEv
  | sigStop
  | reset
  | thExit
  | joinRet
deriving DecidableEq, Repr

structure Conc where
  pc : CallerPC
  th : ThSt
  flag : Bool
  tr : List SEv
deriving DecidableEq, Repr

inductive CStep : Conc → Conc → Prop
  | signal (th : ThSt) (f : Bool) (tr : List SEv) :
      CStep ⟨CallerPC.atSignal, th, f, tr⟩
            ⟨CallerPC.atJoin, th, true, tr ++ [SEv.sigStop]⟩
  | timeout (pc : CallerPC) (tr : List SEv) :
      CStep ⟨pc, ThSt.waiting, false, tr⟩ ⟨pc, ThSt.resetting, false, tr⟩
  | resetDone (pc : CallerPC) (f : Bool) (tr : List SEv) :
      CStep ⟨pc, ThSt.resetting, f, tr⟩ ⟨pc, ThSt.waiting, f, tr ++ [SEv.reset]⟩
  | wake (pc : CallerPC) (tr : List SEv) :
      CStep ⟨pc, ThSt.waiting, true, tr⟩ ⟨pc, ThSt.exited, false, tr ++ [SEv.thExit]⟩
  | join (f : Bool) (tr : List SEv) :
      CStep ⟨CallerPC.atJoin, ThSt.exited, f, tr⟩
            ⟨CallerPC.retTrue, ThSt.exited, f, tr ++ [SEv.joinRet]⟩

/-- The list holds nothing but completed reset rounds. -/
def OnlyResets (l : List SEv) : Prop := ∀ e ∈ l, e = SEv.reset

theorem onlyResets_nil : OnlyResets [] := fun e he => absurd he (List.not_mem_nil e)

theorem onlyResets_append (l1 l2 : List SEv) (h1 : OnlyResets l1)
    (h2 : OnlyResets l2) : OnlyResets (l1 ++ l2) := by
  intro e he
  rcases List.mem_append.mp he with h | h
  · exact h1 e h
  · exact h2 e h

theorem onlyResets_singleton : OnlyResets [SEv.reset] := by
  intro e he
  simpa using he

theorem resetting_ne_exited : ThSt.resetting ≠ ThSt.exited := by decide

theorem waiting_ne_exited : ThSt.waiting ≠ ThSt.exited := by decide

/-- Phase invariant of the interleaved deactivation: before the signal the
trace holds only resets; between signal and thread exit it is resets, the
signal, then resets; after the exit and after the join the two events sit
at the end in order. -/
def ConcInv (s : Conc) : Prop :=
  (s.pc = CallerPC.atSignal ∧ s.flag = false ∧ s.th ≠ ThSt.exited ∧
    OnlyResets s.tr) ∨
  (s.pc = CallerPC.atJoin ∧ s.flag = true ∧ s.th ≠ ThSt.exited ∧
    ∃ l1 l2, OnlyResets l1 ∧ OnlyResets l2 ∧ s.tr = l1 ++ SEv.sigStop :: l2) ∨
  (s.pc = CallerPC.atJoin ∧ s.th = ThSt.exited ∧
    ∃ l1 l2, OnlyResets l1 ∧ OnlyResets l2 ∧
      s.tr = l1 ++ SEv.sigStop :: (l2 ++ [SEv.thExit])) ∨
  (s.pc = CallerPC.retTrue ∧ s.th = ThSt.exited ∧
    ∃ l1 l2, OnlyResets l1 ∧ OnlyResets l2 ∧
      s.tr = l1 ++ SEv.sigStop :: (l2 ++ [SEv.thExit, SEv.joinRet]))

theorem concInv_step (s s' : Conc) (hs : CStep s s') (hi : ConcInv s) :
    ConcInv s' := by
  cases hs with
  | signal th f tr =>
    rcases hi with ⟨_, _, hth, hres⟩ | ⟨hpc, _⟩ | ⟨hpc, _⟩ | ⟨hpc, _⟩
    · exact Or.inr (Or.inl ⟨rfl, rfl, hth, tr, [], hres, onlyResets_nil, rfl⟩)
    · exact nomatch hpc
    · exact nomatch hpc
    · exact nomatch hpc
  | timeout pc tr =>
    rcases hi with ⟨hpc, _, _, hres⟩ | ⟨_, hf, _⟩ | ⟨_, hth, _⟩ | ⟨_, hth, _⟩
    · exact Or.inl ⟨hpc, rfl, resetting_ne_exited, hres⟩
    · exact nomatch hf
    · exact nomatch hth
    · exact nomatch hth
  | resetDone pc f tr =>
    rcases hi with ⟨hpc, hf, _, hres⟩ | ⟨hpc, hf, _, l1, l2, h1, h2, htr⟩ |
      ⟨_, hth, _⟩ | ⟨_, hth, _⟩
    · exact Or.inl ⟨hpc, hf, waiting_ne_exited,
        onlyResets_append tr [SEv.reset] hres onlyResets_singleton⟩
    · refine Or.inr (Or.inl ⟨hpc, hf, waiting_ne_exited, l1, l2 ++ [SEv.reset], h1,
        onlyResets_append l2 [SEv.reset] h2 onlyResets_singleton, ?_⟩)
      rw [show (⟨pc, ThSt.resetting, f, tr⟩ : Conc).tr = tr from rfl] at htr
      rw [htr]
      simp
    · exact nomatch hth
    · exact nomatch hth
  | wake pc tr =>
    rcases hi with ⟨_, hf, _⟩ | ⟨hpc, _, _, l1, l2, h1, h2, htr⟩ |
      ⟨_, hth, _⟩ | ⟨_, hth, _⟩
    · exact nomatch hf
    · refine Or.inr (Or.inr (Or.inl ⟨hpc, rfl, l1, l2, h1, h2, ?_⟩))
      rw [show (⟨pc, ThSt.waiting, true, tr⟩ : Conc).tr = tr from rfl] at htr
      rw [htr]
      simp
    · exact nomatch hth
    · exact nomatch hth
  | join f tr =>
    rcases hi with ⟨hpc, _⟩ | ⟨_, _, hth, _⟩ | ⟨_, _, l1, l2, h1, h2, htr⟩ |
      ⟨hpc, _⟩
    · exact nomatch hpc
    · exact absurd rfl hth
    · refine Or.inr (Or.inr (Or.inr ⟨rfl, rfl, l1, l2, h1, h2, ?_⟩))
      rw [show (⟨CallerPC.atJoin, ThSt.exited, f, tr⟩ : Conc).tr = tr from rfl] at htr
      rw [htr]
      simp
    · exact nomatch hpc

theorem concInv_reachable (s0 s : Conc) (h0 : ConcInv s0)
    (h : Relation.ReflTransGen CStep s0 s) : ConcInv s := by
  induction h with
  | refl => exact h0
  | tail _ hstep ih => exact concInv_step _ _ hstep ih

/-- A concrete active handle with a stop event for destroy instantiation. -/
def activeHandle : InhibitState :=
  { dbus := false, stop_event := true, reason := [], active := true,
    threadRunning := true }

/-- C5: in every interleaving of the deactivation with the watchdog thread,
once the caller returns, the trace is resets, the stop-signal delivery,
resets, the thread exit and the join return, in that order -- signal before
exit before join, all before the call completes.  And destroy on an active
handle with a stop event emits the signal and the join before every
resource release. -/
theorem C5_stop_ordering :
    (∀ (th0 : ThSt) (s : Conc), th0 ≠ ThSt.exited →
      Relation.ReflTransGen CStep ⟨CallerPC.atSignal, th0, false, []⟩ s →
      s.pc = CallerPC.retTrue →
      ∃ l1 l2, OnlyResets l1 ∧ OnlyResets l2 ∧
        s.tr = l1 ++ SEv.sigStop :: (l2 ++ [SEv.thExit, SEv.joinRet])) ∧
    (∀ st : InhibitState, st.active = true → st.stop_event = true →
      ∃ pre, (os_inhibit_sleep_destroy (some st)).2
        = pre ++ Effect.eventSignal :: Effect.threadJoin ::
            [Effect.dbusDestroy, Effect.eventDestroy, Effect.attrDestroy,
             Effect.freeReason, Effect.freeInfo]) := by
  constructor
  · intro th0 s hth hr hpc
    have h0 : ConcInv ⟨CallerPC.atSignal, th0, false, []⟩ :=
      Or.inl ⟨rfl, rfl, hth, onlyResets_nil⟩
    have hinv := concInv_reachable _ _ h0 hr
    rcases hinv with ⟨hp, _⟩ | ⟨hp, _⟩ | ⟨hp, _⟩ | ⟨_, _, l1, l2, h1, h2, htr⟩
    · rw [hpc] at hp; exact absurd hp (by decide)
    · rw [hpc] at hp; exact absurd hp (by decide)
    · rw [hpc] at hp; exact absurd hp (by decide)
    · exact ⟨l1, l2, h1, h2, htr⟩
  · intro st ha hse
    refine ⟨if st.dbus then [Effect.dbusInhibit false] else [], ?_⟩
    by_cases hd : st.dbus <;>
      simp [os_inhibit_sleep_destroy, os_inhibit_sleep_set_active, ha, hse, hd]

/-- C5 witness: the run signal, wake, join from a waiting thread reaches the
returned state with the three events in order, and the destroy clause at a
concrete active handle. -/
theorem C5_stop_ordering_witness :
    (∃ l1 l2, OnlyResets l1 ∧ OnlyResets l2 ∧
      ([SEv.sigStop, SEv.thExit, SEv.joinRet] : List SEv)
        = l1 ++ SEv.sigStop :: (l2 ++ [SEv.thExit, SEv.joinRet])) ∧
    (∃ pre, (os_inhibit_sleep_destroy (some activeHandle)).2
      = pre ++ Effect.eventSignal :: Effect.threadJoin ::
          [Effect.dbusDestroy, Effect.eventDestroy, Effect.attrDestroy,
           Effect.freeReason, Effect.freeInfo]) := by
  have h1 : CStep ⟨CallerPC.atSignal, ThSt.waiting, false, []⟩
      ⟨CallerPC.atJoin, ThSt.waiting, true, [SEv.sigStop]⟩ :=
    CStep.signal ThSt.waiting false []
  have h2 : CStep ⟨CallerPC.atJoin, ThSt.waiting, true, [SEv.sigStop]⟩
      ⟨CallerPC.atJoin, ThSt.exited, false, [SEv.sigStop, SEv.thExit]⟩ :=
    CStep.wake CallerPC.atJoin [SEv.sigStop]
  have h3 : CStep ⟨CallerPC.atJoin, ThSt.exited, false,
        [SEv.sigStop, SEv.thExit]⟩
      ⟨CallerPC.retTrue, ThSt.exited, false,
        [SEv.sigStop, SEv.thExit, SEv.joinRet]⟩ :=
    CStep.join false [SEv.sigStop, SEv.thExit]
  have hr : Relation.ReflTransGen CStep
      ⟨CallerPC.atSignal, ThSt.waiting, false, []⟩
      ⟨CallerPC.retTrue, ThSt.exited, false,
        [SEv.sigStop, SEv.thExit, SEv.joinRet]⟩ :=
    Relation.ReflTransGen.head h1 (Relation.ReflTransGen.head h2
      (Relation.ReflTransGen.single h3))
  exact ⟨C5_stop_ordering.1 ThSt.waiting _ (by decide) hr rfl,
         C5_stop_ordering.2 activeHandle (by decide) (by decide)⟩
